import Mathlib

/-!
Formal model of the parallel download orchestrator in `downloader.py`.

Python strings are modelled as lists of code points (`List Nat`); the
string operations the program uses (`str.lower`, `str.upper`, `str.strip`,
`str.splitlines`, substring membership `in`, `str.startswith`) are given
executable ASCII-faithful definitions.  Pure functions of the source
(`build_command`, `infer_status`, `read_urls_from_text`, ...) become Lean
functions; the subprocess runner and the coordinator become functions of an
explicit behaviour/outcome record; the thread pool and the log lock become
small labelled transition systems.
-/

namespace YtDlp

/-- A Python string as a list of Unicode code points. -/
abbrev PyStr := List Nat

/-- Encode a Lean string literal as a list of code points. -/
def enc (s : String) : PyStr := s.data.map Char.toNat

/-- `str.lower` on one code point (ASCII range, as used by the program). -/
def lowerChar (n : Nat) : Nat := if 65 ≤ n ∧ n ≤ 90 then n + 32 else n

/-- `str.upper` on one code point: Python applies the full (one-to-many)
Unicode uppercase mapping, so the result is a list of code points.  ASCII
letters map one-to-one; U+00DF (`ß`) expands to `"SS"` — the one-to-many
mapping exercised below.  Code points outside the modelled range are kept
unchanged, so theorems about uppercasing carry an ASCII-input hypothesis
and say nothing about further exotic expansions (ligatures etc.). -/
def upperChar (n : Nat) : List Nat :=
  if 97 ≤ n ∧ n ≤ 122 then [n - 32]
  else if n = 223 then [83, 83]
  else [n]

/-- `str.lower`. -/
def pyLower (s : PyStr) : PyStr := s.map lowerChar

/-- `str.upper`: concatenation of the per-code-point uppercase images. -/
def pyUpper (s : PyStr) : PyStr := s.flatMap upperChar

/-- Python substring membership `needle in hay`. -/
def hasSub (hay needle : PyStr) : Bool :=
  needle.isPrefixOf hay ||
    (match hay with
     | [] => false
     | _ :: t => hasSub t needle)

/-- Default-whitespace test of `str.strip` (ASCII whitespace). -/
def isSpaceChar (n : Nat) : Bool :=
  n = 32 || n = 9 || n = 10 || n = 13 || n = 11 || n = 12

/-- `str.strip()`: drop leading and trailing whitespace. -/
def pyStrip (s : PyStr) : PyStr :=
  ((s.dropWhile isSpaceChar).reverse.dropWhile isSpaceChar).reverse

/-- `str.startswith("#")`. -/
def startsWithHash (s : PyStr) : Bool :=
  match s with
  | 35 :: _ => true
  | _ => false

/-- Accumulator loop of `str.splitlines` (handles `\n`, `\r`, `\r\n`;
no trailing empty line for a trailing terminator, as in Python). -/
def splitlinesGo (acc : PyStr) (s : PyStr) : List PyStr :=
  match s with
  | [] => [acc.reverse]
  | 13 :: 10 :: [] => [acc.reverse]
  | 13 :: 10 :: rest => acc.reverse :: splitlinesGo [] rest
  | 13 :: [] => [acc.reverse]
  | 13 :: rest => acc.reverse :: splitlinesGo [] rest
  | 10 :: [] => [acc.reverse]
  | 10 :: rest => acc.reverse :: splitlinesGo [] rest
  | c :: rest => splitlinesGo (c :: acc) rest

/-- `str.splitlines()` (empty string gives no lines). -/
def splitlines (s : PyStr) : List PyStr :=
  match s with
  | [] => []
  | _ => splitlinesGo [] s

-- ---------------------------------------------------------------------
-- Configuration constants of `downloader.py` (lines 32-67).
-- Paths are relative to the installation directory `BASE`, which the
-- model fixes to the literal prefix used below.
-- ---------------------------------------------------------------------

def MAX_WORKERS : Nat := 4
def PARALLEL_FRAGMENTS : String := "16"
def CONCURRENT_FRAGMENTS : String := "16"
def DEFAULT_AUDIO_FORMAT : String := "mp3"
def AUDIO_QUALITY : String := "0"
def YT_DLP_EXE : String := "bin/yt-dlp.exe"
def BIN_DIR : String := "bin"

-- ---------------------------------------------------------------------
-- `read_urls_from_text` (lines 185-192) and the line filter shared with
-- `read_urls_from_file` (lines 169-183).
-- ---------------------------------------------------------------------

/-- The `for`-loop of `read_urls_from_text`: strip each line, skip the
blank and `#`-prefixed ones, append the rest in order. -/
def collectUrls (ls : List PyStr) : List PyStr :=
  match ls with
  | [] => []
  | l :: rest =>
    let s := pyStrip l
    if s.isEmpty || startsWithHash s then collectUrls rest
    else s :: collectUrls rest

/-- `read_urls_from_text` (lines 185-192). -/
def read_urls_from_text (text : PyStr) : List PyStr :=
  collectUrls (splitlines text)

/-- Modelled from the spec: the parsed URL list is "exactly the trimmed
non-empty lines that do not start with `#`, in their original input
order" — a filter over the map of `strip` on the split lines. -/
def specParsedUrls (text : PyStr) : List PyStr :=
  ((splitlines text).map pyStrip).filter
    (fun s => !(s.isEmpty || startsWithHash s))

-- ---------------------------------------------------------------------
-- `build_command` (lines 194-227).
-- ---------------------------------------------------------------------

/-- The output template `f"{output_dir / '%(title)s.%(ext)s'}"`
(line 195), with `/` as the path separator. -/
def outtmpl (output_dir : String) : String :=
  output_dir ++ "/%(title)s.%(ext)s"

/-- Python `list.insert(-1, x)`: insert before the last element
(insert at position `len - 1`). -/
def pyInsertBeforeLast (x : String) (l : List String) : List String :=
  l.take (l.length - 1) ++ x :: l.drop (l.length - 1)

/-- `build_command` (lines 194-227): the fixed argument list with the URL
last, plus `--no-playlist` inserted before the URL exactly when
`playlist_mode == "single"`. -/
def build_command (url : String) (output_dir : String) (audio_format : String)
    (playlist_mode : String) : List String :=
  let cmd : List String :=
    [YT_DLP_EXE,
     "-f", "bestaudio/best",
     "--js-runtimes", "node",
     "--extract-audio",
     "--audio-format", audio_format,
     "--audio-quality", AUDIO_QUALITY,
     "-o", outtmpl output_dir,
     "-N", PARALLEL_FRAGMENTS,
     "--concurrent-fragments", CONCURRENT_FRAGMENTS,
     "--ffmpeg-location", BIN_DIR,
     "--add-metadata",
     "--embed-metadata",
     "--embed-thumbnail",
     "--progress",
     "--newline",
     "--ignore-errors",
     "--no-mtime",
     "--restrict-filenames",
     url]
  if playlist_mode = "single" then pyInsertBeforeLast "--no-playlist" cmd
  else cmd

-- ---------------------------------------------------------------------
-- `infer_status` (lines 229-243).
-- ---------------------------------------------------------------------

/-- The status tags `infer_status` can return. -/
inductive Status where
  | converting
  | tagging
  | cleanup
  | warning
  | error
  | downloading
deriving DecidableEq, Repr

/-- The chain of substring checks of `infer_status` over the already
lowercased line (lines 231-243), in source order. -/
def statusOfLowered (lowered : PyStr) : Option Status :=
  if hasSub lowered (enc "extracting audio") || hasSub lowered (enc "post-process")
      || hasSub lowered (enc "ffmpeg") then some .converting
  else if hasSub lowered (enc "adding metadata") || hasSub lowered (enc "embedding") then
    some .tagging
  else if hasSub lowered (enc "deleting original") then some .cleanup
  else if hasSub lowered (enc "warning") then some .warning
  else if hasSub lowered (enc "error") then some .error
  else if hasSub lowered (enc "[download]") || hasSub lowered (enc "%")
      || hasSub lowered (enc "destination") then some .downloading
  else none

/-- `infer_status` (lines 229-243): lowercase the line, then run the
substring checks in priority order. -/
def infer_status (line : PyStr) : Option Status :=
  statusOfLowered (pyLower line)

-- ---------------------------------------------------------------------
-- `run_yt_dlp_for_url` (lines 254-294).
--
-- The interaction with the external process is modelled by a behaviour
-- record: whether `subprocess.Popen` raises, the lines readable from the
-- merged output stream, whether iterating the stream raises after those
-- lines, whether `proc.wait()` raises, the exit code otherwise, and
-- whether `proc.poll() is None` (still alive) inside the handler.
-- ---------------------------------------------------------------------

/-- Behaviour of one external process interaction. -/
structure ProcBeh where
  spawnExn : Option PyStr
  timestamp : PyStr
  lines : List PyStr
  readExn : Option PyStr
  waitExn : Option PyStr
  exitCode : Int
  aliveAtHandler : Bool

/-- Events a Worker Runner pushes onto the queue. -/
inductive WEvent where
  | log (text : PyStr)
  | status (index : Nat) (s : Status)
deriving DecidableEq, Repr

/-- Everything observable about one `run_yt_dlp_for_url` call: its result
(`.error` when an exception propagates out of the function), the lines
appended to the shared log, the lines appended to the error log, the queued
events, and whether `proc.kill()` ran. -/
structure RunOut where
  result : Except PyStr (PyStr × Int)
  logAppends : List PyStr
  errLogAppends : List PyStr
  events : List WEvent
  killed : Bool
deriving Repr

/-- The line prefix `f"[{index}] "` (line 268). -/
def pfx (index : Nat) : PyStr :=
  91 :: (Nat.toDigits 10 index).map Char.toNat ++ (93 :: 32 :: [])

/-- The start marker written before reading begins (line 274). -/
def startMark (timestamp url : PyStr) : PyStr :=
  enc "\n\n=== START " ++ timestamp ++ enc " URL=" ++ url

/-- The end marker written after the process exits (line 286). -/
def endMark (retcode : Int) : PyStr :=
  enc "=== END returncode=" ++ enc (toString retcode)

/-- The diagnostic appended to the error log in the handler (line 289). -/
def errDiag (url e : PyStr) : PyStr :=
  enc "ERROR for " ++ url ++ enc ": " ++ e

/-- Events pushed for one output line (lines 275-283): a `log` event with
the prefixed line, then a `status` event when the classifier fires. -/
def lineEvents (index : Nat) (line : PyStr) : List WEvent :=
  WEvent.log (pfx index ++ line) ::
    (match infer_status line with
     | some st => [WEvent.status index st]
     | none => [])

/-- `run_yt_dlp_for_url` (lines 254-294).  `Popen` runs before the `try`
block, so a spawn exception propagates (`.error`); exceptions while
reading or waiting are caught: the handler appends a diagnostic to the
error log, kills the process if still alive, and the function returns
`(url, -1)`. -/
def run_yt_dlp_for_url (beh : ProcBeh) (url : PyStr) (index : Nat) : RunOut :=
  match beh.spawnExn with
  | some e => ⟨.error e, [], [], [], false⟩
  | none =>
    let lineLogs := beh.lines.map (fun l => pfx index ++ l)
    let evs := beh.lines.flatMap (lineEvents index)
    let logsSoFar := startMark beh.timestamp url :: lineLogs
    match beh.readExn with
    | some e =>
      ⟨.ok (url, -1), logsSoFar, [errDiag url e], evs, beh.aliveAtHandler⟩
    | none =>
      match beh.waitExn with
      | some e =>
        ⟨.ok (url, -1), logsSoFar, [errDiag url e], evs, beh.aliveAtHandler⟩
      | none =>
        ⟨.ok (url, beh.exitCode), logsSoFar ++ [endMark beh.exitCode],
         [], evs, false⟩

-- ---------------------------------------------------------------------
-- `cli_main` (lines 296-339): process exit status.
-- ---------------------------------------------------------------------

/-- `read_urls_from_file` (lines 169-183): `sys.exit(1)` (modelled as
`.error 1`) when `urls.txt` is missing or filters to no URLs; the file's
per-line filter is the one shared with `read_urls_from_text`. -/
def read_urls_from_file (file : Option PyStr) : Except Nat (List PyStr) :=
  match file with
  | none => .error 1
  | some text =>
    let urls := read_urls_from_text text
    if urls = [] then .error 1 else .ok urls

/-- Exit status of `cli_main` (lines 296-339): `ensure_yt_dlp` failure
exits 1; `ensure_ffmpeg` failure only warns; a missing or empty URL source
exits 1; otherwise the batch runs and the process exits 0 whatever the
per-job results (`jobResults`) are. -/
def cli_main_exit (ensureYt : Except PyStr Unit) (ensureFf : Except PyStr Unit)
    (file : Option PyStr) (jobResults : List (Except PyStr (PyStr × Int))) : Nat :=
  match ensureYt with
  | .error _ => 1
  | .ok _ =>
    match ensureFf, read_urls_from_file file, jobResults with
    | _, .error c, _ => c
    | _, .ok _, _ => 0

-- ---------------------------------------------------------------------
-- `DownloaderGUI.run_downloads` (lines 559-601): the event stream the
-- coordinator pushes, as a function of the provisioning outcomes and of
-- the per-job completions in completion order.  A completion is the pair
-- `(url, index)` from the futures map together with the `fut.result()`
-- outcome (`.error` when result retrieval raises).
-- ---------------------------------------------------------------------

/-- Events of the GUI coordinator (strings are Lean `String`s here, as no
case-folding is involved). -/
inductive GEvent where
  | log (text : String)
  | status (index : Nat) (value : String)
  | done
deriving DecidableEq, Repr

/-- Events emitted for one completed future (lines 589-597). -/
def completionEvents (c : (String × Nat) × Except String (String × Int)) :
    List GEvent :=
  match c with
  | ((_, index), .ok (_, code)) =>
    [.status index (if code = 0 then "done" else "failed (" ++ toString code ++ ")")]
  | ((url, index), .error e) =>
    [.log ("[ERROR] " ++ url ++ " raised exception: " ++ e),
     .status index "error"]

/-- `run_downloads` (lines 559-601) as the list of queued events: early
return with a `done` event when `ensure_yt_dlp` fails; otherwise optional
ffmpeg warnings, the per-completion events in completion order, and the
final elapsed-time log followed by the terminal `done`. -/
def run_downloads (ensureYt : Except String Unit) (ensureFf : Except String Unit)
    (elapsed : String)
    (completions : List ((String × Nat) × Except String (String × Int))) :
    List GEvent :=
  match ensureYt with
  | .error e => [.log ("Failed to ensure yt-dlp: " ++ e), .done]
  | .ok _ =>
    (match ensureFf with
     | .error e =>
       [.log ("Failed to ensure ffmpeg: " ++ e),
        .log "Warning: ffmpeg missing or failed to extract. Conversion may fail."]
     | .ok _ => []) ++
    completions.flatMap completionEvents ++
    [.log ("All done. Elapsed: " ++ elapsed ++ "s"), .done]

/-- Count of terminal `done` events in a stream. -/
def countDone (evs : List GEvent) : Nat :=
  (evs.filter (fun e => match e with | .done => true | _ => false)).length

-- ---------------------------------------------------------------------
-- The bounded worker pool (`ThreadPoolExecutor(max_workers=MAX_WORKERS)`,
-- lines 317-321 and 576-588): a labelled transition system.  The executor
-- creates at most one worker thread per submitted task and never more
-- than `max_workers`, so a queued job may start only while fewer than
-- `max_workers` jobs are running; a running job may finish at any time.
-- ---------------------------------------------------------------------

/-- Pool state: job indices not yet started, currently running, and
finished. -/
structure PoolSt where
  queued : List Nat
  running : List Nat
  finished : List Nat
deriving DecidableEq, Repr

/-- One scheduler step of the bounded pool. -/
inductive PoolStep (w : Nat) : PoolSt → PoolSt → Prop
  | start (j : Nat) (q r f : List Nat) :
      r.length < w →
      PoolStep w ⟨j :: q, r, f⟩ ⟨q, j :: r, f⟩
  | finish (j : Nat) (q r₁ r₂ f : List Nat) :
      PoolStep w ⟨q, r₁ ++ j :: r₂, f⟩ ⟨q, r₁ ++ r₂, j :: f⟩

/-- Reachability in the pool transition system. -/
inductive PoolReach (w : Nat) : PoolSt → PoolSt → Prop
  | refl (s : PoolSt) : PoolReach w s s
  | tail {s t u : PoolSt} : PoolReach w s t → PoolStep w t u → PoolReach w s u

/-- Initial pool state for a batch: every job queued. -/
def initPool (jobs : List Nat) : PoolSt := ⟨jobs, [], []⟩

-- ---------------------------------------------------------------------
-- The shared log lock (`LOG_LOCK`, line 67) and `log_line` (lines
-- 245-248): a trace model.  Each thread's program is a sequence of
-- `log_line` calls; a trace is an interleaving of the thread programs
-- that respects mutex semantics (a `lock` action only fires while no
-- thread holds the lock; `unlock` only by the holder).
-- ---------------------------------------------------------------------

/-- Primitive actions on the shared log. -/
inductive LogAct where
  | lock (t : Nat)
  | write (t : Nat) (s : PyStr)
  | flush (t : Nat)
  | unlock (t : Nat)
deriving DecidableEq, Repr

/-- `log_line` (lines 245-248): acquire `LOG_LOCK`, write the message plus
a newline, flush, release. -/
def log_line (t : Nat) (msg : PyStr) : List LogAct :=
  [.lock t, .write t (msg ++ [10]), .flush t, .unlock t]

/-- The log actions of thread `t` appending the messages `msgs`, each via
`log_line`. -/
def threadActs (t : Nat) (msgs : List PyStr) : List LogAct :=
  msgs.flatMap (log_line t)

/-- Pointwise update of a family of thread queues. -/
def upd (qs : Nat → List LogAct) (t : Nat) (v : List LogAct) :
    Nat → List LogAct :=
  fun u => if u = t then v else qs u

/-- `Mix qs tr`: `tr` is an interleaving of the per-thread action queues
`qs`, consuming each queue front-to-back. -/
inductive Mix : (Nat → List LogAct) → List LogAct → Prop
  | nil (qs) : (∀ t, qs t = []) → Mix qs []
  | step (qs : Nat → List LogAct) (t : Nat) (a : LogAct) (tl : List LogAct)
      (tr : List LogAct) :
      qs t = a :: tl → Mix (upd qs t tl) tr → Mix qs (a :: tr)

/-- Mutex semantics: `lock t` fires only when no thread holds the lock,
`unlock t` only when `t` holds it; writes and flushes are unconstrained by
the lock itself. -/
inductive LockOk : Option Nat → List LogAct → Prop
  | nil (st : Option Nat) : LockOk st []
  | lock (t : Nat) (tr : List LogAct) :
      LockOk (some t) tr → LockOk none (.lock t :: tr)
  | write (st : Option Nat) (t : Nat) (s : PyStr) (tr : List LogAct) :
      LockOk st tr → LockOk st (.write t s :: tr)
  | flush (st : Option Nat) (t : Nat) (tr : List LogAct) :
      LockOk st tr → LockOk st (.flush t :: tr)
  | unlock (t : Nat) (tr : List LogAct) :
      LockOk none tr → LockOk (some t) (.unlock t :: tr)

/-- Every queue is a whole number of `log_line` blocks. -/
def AllBlocks (qs : Nat → List LogAct) : Prop :=
  ∀ t, ∃ msgs, qs t = threadActs t msgs

/-- The bytes appended to the log file, in trace order. -/
def writesOf (tr : List LogAct) : List PyStr :=
  tr.filterMap (fun a => match a with | .write _ s => some s | _ => none)

-- =====================================================================
-- Theorems
-- =====================================================================

-- Case-folding lemmas for the classifier.

theorem lowerChar_lowerChar (n : Nat) : lowerChar (lowerChar n) = lowerChar n := by
  unfold lowerChar
  split <;> (try split) <;> omega

theorem pyLower_pyLower (s : PyStr) : pyLower (pyLower s) = pyLower s := by
  induction s with
  | nil => rfl
  | cons a s ih =>
    simp only [pyLower, List.map_cons, List.map_map] at *
    simp [lowerChar_lowerChar, ih]

theorem pyLower_upperChar (n : Nat) (h : n < 128) :
    pyLower (upperChar n) = [lowerChar n] := by
  by_cases h1 : 97 ≤ n ∧ n ≤ 122
  · rw [upperChar, if_pos h1]
    show [lowerChar (n - 32)] = [lowerChar n]
    rw [lowerChar, if_pos (by omega), lowerChar, if_neg (by omega)]
    congr 1
    omega
  · rw [upperChar, if_neg h1, if_neg (by omega)]
    rfl

theorem pyLower_pyUpper (s : PyStr) (h : ∀ n ∈ s, n < 128) :
    pyLower (pyUpper s) = pyLower s := by
  induction s with
  | nil => rfl
  | cons a s ih =>
    have ha : a < 128 := h a (List.mem_cons_self a s)
    have hs : ∀ n ∈ s, n < 128 := fun n hn => h n (List.mem_cons_of_mem a hn)
    calc pyLower (pyUpper (a :: s))
        = pyLower (upperChar a) ++ pyLower (pyUpper s) := by
          simp [pyUpper, pyLower]
      _ = lowerChar a :: pyLower s := by
          rw [pyLower_upperChar a ha, ih hs]
          rfl
      _ = pyLower (a :: s) := by simp [pyLower]

/-- C9 counterexample: Python's full uppercase mapping expands `"ß"` to
`"SS"`, so `"post-proceß".upper() = "POST-PROCESS"`; the original line
classifies as no status, but its uppercased form contains the needle
`"post-process"` and classifies as `converting` — refuting invariance
under `str.upper`. -/
theorem C9_counterexample :
    pyUpper (enc "post-proceß") = enc "POST-PROCESS" ∧
    infer_status (enc "post-proceß") = none ∧
    infer_status (pyUpper (enc "post-proceß")) = some Status.converting := by
  decide

/-- C9 (amended): `infer_status` is invariant under lowercasing for every
input, because the classification only looks at the lowercased content and
lowercasing is idempotent; it is invariant under uppercasing for inputs
of ASCII code points, whose uppercase mapping is one-to-one — full case
mapping (such as `"ß"` uppercasing to `"SS"`) can create classifier
needles and change the result. -/
theorem C9_infer_status_case_invariant (s : PyStr) :
    infer_status (pyLower s) = infer_status s ∧
    ((∀ n ∈ s, n < 128) → infer_status (pyUpper s) = infer_status s) := by
  constructor
  · unfold infer_status
    rw [pyLower_pyLower]
  · intro h
    unfold infer_status
    rw [pyLower_pyUpper s h]

/-- C9 witness: an all-ASCII line classifies identically to its
uppercased form. -/
theorem C9_case_invariant_witness :
    infer_status (pyUpper (enc "warning: retry")) =
      infer_status (enc "warning: retry") :=
  (C9_infer_status_case_invariant (enc "warning: retry")).2 (by decide)

/-- C3 counterexample: the line `"ffmpeg embedding error"` contains both
`"embedding"` and `"error"` (case-insensitively) but classifies as
`converting`, not `tagging`, because the converting check for `"ffmpeg"`
fires first. -/
theorem C3_counterexample :
    hasSub (pyLower (enc "ffmpeg embedding error")) (enc "embedding") = true ∧
    hasSub (pyLower (enc "ffmpeg embedding error")) (enc "error") = true ∧
    infer_status (enc "ffmpeg embedding error") = some Status.converting ∧
    infer_status (enc "ffmpeg embedding error") ≠ some Status.tagging := by
  decide

/-- C3 (amended): `infer_status` applies its case-insensitive substring
rules in the fixed priority order converting, tagging, cleanup, warning,
error, downloading, first match wins.  Consequently a line containing
`"embedding"` (in any letter case) never classifies as `error`: it
classifies as `tagging` unless it also contains one of the converting
triggers (`"extracting audio"`, `"post-process"`, `"ffmpeg"`), in which
case it classifies as `converting`; and the line `"WARNING: retrying"`
classifies as `warning`. -/
theorem C3_classifier_priority :
    (∀ line : PyStr,
      hasSub (pyLower line) (enc "embedding") = true →
      hasSub (pyLower line) (enc "extracting audio") = false →
      hasSub (pyLower line) (enc "post-process") = false →
      hasSub (pyLower line) (enc "ffmpeg") = false →
      infer_status line = some Status.tagging) ∧
    (∀ line : PyStr,
      (hasSub (pyLower line) (enc "extracting audio") ||
        hasSub (pyLower line) (enc "post-process") ||
        hasSub (pyLower line) (enc "ffmpeg")) = true →
      infer_status line = some Status.converting) ∧
    (∀ line : PyStr,
      hasSub (pyLower line) (enc "embedding") = true →
      infer_status line ≠ some Status.error) ∧
    infer_status (enc "WARNING: retrying") = some Status.warning := by
  refine ⟨?_, ?_, ?_, by decide⟩
  · intro line hEmb hExt hPost hFf
    unfold infer_status statusOfLowered
    simp [hEmb, hExt, hPost, hFf]
  · intro line hc
    unfold infer_status statusOfLowered
    simp [hc]
  · intro line hEmb
    unfold infer_status statusOfLowered
    by_cases hc : (hasSub (pyLower line) (enc "extracting audio") ||
        hasSub (pyLower line) (enc "post-process") ||
        hasSub (pyLower line) (enc "ffmpeg")) = true
    · simp [hc]
    · simp only [Bool.not_eq_true] at hc
      simp [hc, hEmb]

/-- C3 witness: a line containing `"embedding"` and `"error"` but no
converting trigger classifies as `tagging`, while one that also contains
the trigger `"ffmpeg"` classifies as `converting`. -/
theorem C3_classifier_priority_witness :
    infer_status (enc "embedding error") = some Status.tagging ∧
    infer_status (enc "ffmpeg embedding error") = some Status.converting :=
  ⟨C3_classifier_priority.1 (enc "embedding error")
      (by decide) (by decide) (by decide) (by decide),
   C3_classifier_priority.2.1 (enc "ffmpeg embedding error") (by decide)⟩

-- The loop of `read_urls_from_text` as a filter over the stripped lines.

theorem collectUrls_eq_filter (ls : List PyStr) :
    collectUrls ls =
      (ls.map pyStrip).filter (fun s => !(s.isEmpty || startsWithHash s)) := by
  induction ls with
  | nil => rfl
  | cons l rest ih =>
    simp only [collectUrls, List.map_cons, List.filter_cons]
    cases h : (pyStrip l).isEmpty || startsWithHash (pyStrip l) <;> simp [h, ih]

/-- C5: for every input text, the parsed URL list is exactly the trimmed
non-empty lines that do not start with `#`, in their original input order;
in particular parsing `"a\n#skip\n\nb\n"` yields `["a", "b"]`. -/
theorem C5_read_urls_from_text :
    (∀ text : PyStr, read_urls_from_text text = specParsedUrls text) ∧
    read_urls_from_text (enc "a\n#skip\n\nb\n") = [enc "a", enc "b"] := by
  refine ⟨fun text => ?_, by decide⟩
  rw [read_urls_from_text, specParsedUrls, collectUrls_eq_filter]

-- Shape lemmas for `build_command`.

theorem pyInsertBeforeLast_append (x u : String) (l : List String) :
    pyInsertBeforeLast x (l ++ [u]) = l ++ [x, u] := by
  have h : (l ++ [u]).length - 1 = l.length := by simp
  rw [pyInsertBeforeLast, h, List.take_left, List.drop_left]

theorem ne_outtmpl (d : String) : "--no-playlist" ≠ outtmpl d := by
  intro h
  have hlen := congrArg String.length h
  rw [outtmpl, String.length_append] at hlen
  have h1 : ("--no-playlist" : String).length = 13 := rfl
  have h2 : ("/%(title)s.%(ext)s" : String).length = 18 := rfl
  omega

theorem build_command_playlist_eq (u d f m : String) (hm : m ≠ "single") :
    build_command u d f m =
      [YT_DLP_EXE, "-f", "bestaudio/best", "--js-runtimes", "node", "--extract-audio",
       "--audio-format", f, "--audio-quality", AUDIO_QUALITY, "-o", outtmpl d,
       "-N", PARALLEL_FRAGMENTS, "--concurrent-fragments", CONCURRENT_FRAGMENTS,
       "--ffmpeg-location", BIN_DIR, "--add-metadata", "--embed-metadata",
       "--embed-thumbnail", "--progress", "--newline", "--ignore-errors",
       "--no-mtime", "--restrict-filenames"] ++ [u] := by
  rw [build_command, if_neg hm]
  rfl

theorem build_command_single_eq (u d f : String) :
    build_command u d f "single" =
      [YT_DLP_EXE, "-f", "bestaudio/best", "--js-runtimes", "node", "--extract-audio",
       "--audio-format", f, "--audio-quality", AUDIO_QUALITY, "-o", outtmpl d,
       "-N", PARALLEL_FRAGMENTS, "--concurrent-fragments", CONCURRENT_FRAGMENTS,
       "--ffmpeg-location", BIN_DIR, "--add-metadata", "--embed-metadata",
       "--embed-thumbnail", "--progress", "--newline", "--ignore-errors",
       "--no-mtime", "--restrict-filenames"] ++ ["--no-playlist", u] := by
  rw [build_command, if_pos rfl]
  exact pyInsertBeforeLast_append "--no-playlist" u
    [YT_DLP_EXE, "-f", "bestaudio/best", "--js-runtimes", "node", "--extract-audio",
     "--audio-format", f, "--audio-quality", AUDIO_QUALITY, "-o", outtmpl d,
     "-N", PARALLEL_FRAGMENTS, "--concurrent-fragments", CONCURRENT_FRAGMENTS,
     "--ffmpeg-location", BIN_DIR, "--add-metadata", "--embed-metadata",
     "--embed-thumbnail", "--progress", "--newline", "--ignore-errors",
     "--no-mtime", "--restrict-filenames"]

theorem not_mem_build_playlist (u d f m : String) (hm : m ≠ "single")
    (hu : u ≠ "--no-playlist") (hf : f ≠ "--no-playlist") :
    "--no-playlist" ∉ build_command u d f m := by
  rw [build_command_playlist_eq u d f m hm]
  intro h
  simp only [List.mem_append, List.mem_cons, List.not_mem_nil, or_false,
    List.mem_singleton, YT_DLP_EXE, AUDIO_QUALITY, PARALLEL_FRAGMENTS,
    CONCURRENT_FRAGMENTS, BIN_DIR] at h
  rcases h with h | h
  · simp at h
    rcases h with h | h
    · exact hf h.symm
    · exact ne_outtmpl d h
  · exact hu h.symm

/-- C4 counterexample: with playlist mode `"playlist"` and the URL equal to
the string `"--no-playlist"` (the program performs no URL validation), the
returned argument list does contain `"--no-playlist"` — as its trailing URL
argument — so the flag-absence clause fails as universally stated. -/
theorem C4_counterexample :
    "--no-playlist" ∈ build_command "--no-playlist" "out" "mp3" "playlist" := by
  decide

/-- C4 (amended): for every URL, output directory and audio format, the
argument list returned by `build_command` has the URL as its last element;
when `playlist_mode` is `"single"` the `"--no-playlist"` flag appears
immediately before that final URL argument; and when `playlist_mode` is
`"playlist"` the string `"--no-playlist"` is absent from the list provided
neither the URL nor the audio format is itself that literal string (those
argument values pass through unvalidated). -/
theorem C4_command_shape (u d f : String) :
    ((build_command u d f "single").getLast? = some u ∧
     (build_command u d f "playlist").getLast? = some u) ∧
    (∃ p, build_command u d f "single" = p ++ ["--no-playlist", u]) ∧
    (u ≠ "--no-playlist" → f ≠ "--no-playlist" →
      "--no-playlist" ∉ build_command u d f "playlist") := by
  refine ⟨⟨?_, ?_⟩, ⟨_, build_command_single_eq u d f⟩,
    fun hu hf => not_mem_build_playlist u d f "playlist" (by decide) hu hf⟩
  · rw [build_command_single_eq u d f]
    simp [List.getLast?_append_cons]
  · rw [build_command_playlist_eq u d f "playlist" (by decide)]
    simp [List.getLast?_concat]

/-- C4 witness: at a concrete URL, directory and format, the single-mode
command ends in `[..., "--no-playlist", url]` and the playlist-mode command
does not contain the flag. -/
theorem C4_command_shape_witness :
    (build_command "https://x/y" "out" "mp3" "single").getLast? =
      some "https://x/y" ∧
    "--no-playlist" ∉ build_command "https://x/y" "out" "mp3" "playlist" :=
  ⟨(C4_command_shape "https://x/y" "out" "mp3").1.1,
   (C4_command_shape "https://x/y" "out" "mp3").2.2 (by decide) (by decide)⟩

/-- C10 counterexample: with `playlist_mode = "Single"` (wrong case) and
the audio format equal to the literal string `"--no-playlist"`, the
returned list does contain `"--no-playlist"` — as the `--audio-format`
argument value — so the no-flag clause fails as universally stated. -/
theorem C10_counterexample :
    "--no-playlist" ∈ build_command "u" "d" "--no-playlist" "Single" := by
  decide

/-- C10 (amended): `build_command` performs no validation of
`playlist_mode`: for every value other than the exact string `"single"`
(including `"Single"`, the empty string, or arbitrary garbage) the returned
argument list is identical to the one returned for `"playlist"`, and it
contains the string `"--no-playlist"` only when the URL or audio-format
argument is itself that literal string; only the exact string `"single"`
changes the output. -/
theorem C10_no_mode_validation (u d f m : String) (hm : m ≠ "single") :
    build_command u d f m = build_command u d f "playlist" ∧
    (u ≠ "--no-playlist" → f ≠ "--no-playlist" →
      "--no-playlist" ∉ build_command u d f m) := by
  refine ⟨?_, fun hu hf => not_mem_build_playlist u d f m hm hu hf⟩
  rw [build_command_playlist_eq u d f m hm,
    build_command_playlist_eq u d f "playlist" (by decide)]

/-- C10 witness: mode `"Single"` behaves exactly like `"playlist"` at a
concrete input and inserts no flag. -/
theorem C10_no_mode_validation_witness :
    build_command "https://x/y" "out" "mp3" "Single" =
      build_command "https://x/y" "out" "mp3" "playlist" ∧
    "--no-playlist" ∉ build_command "https://x/y" "out" "mp3" "Single" :=
  ⟨(C10_no_mode_validation "https://x/y" "out" "mp3" "Single" (by decide)).1,
   (C10_no_mode_validation "https://x/y" "out" "mp3" "Single" (by decide)).2
     (by decide) (by decide)⟩

/-- C6 counterexample: when `ensure_yt_dlp` fails (for instance the
download of the binary raises), `cli_main` exits with status 1 even though
the URL source file is present and contains a URL, refuting the claimed
"if and only if". -/
theorem C6_counterexample :
    cli_main_exit (.error (enc "download failed")) (.ok ())
        (some (enc "https://a")) [] = 1 ∧
    (some (enc "https://a") : Option PyStr) ≠ none ∧
    read_urls_from_text (enc "https://a") = [enc "https://a"] := by
  refine ⟨rfl, by decide, by decide⟩

/-- C6 (amended): in CLI mode the process exits with status 1 if and only
if `ensure_yt_dlp` fails, the URL source file is missing, or it contains no
non-comment, non-blank lines; in every other case the run completes and the
process exits with status 0, regardless of the individual job results
(an `ensure_ffmpeg` failure only warns). -/
theorem C6_cli_exit (eY eF : Except PyStr Unit) (file : Option PyStr)
    (jobs : List (Except PyStr (PyStr × Int))) :
    (cli_main_exit eY eF file jobs = 1 ↔
      (∃ e, eY = .error e) ∨ file = none ∨
        read_urls_from_text (file.getD []) = []) ∧
    (cli_main_exit eY eF file jobs = 0 ∨ cli_main_exit eY eF file jobs = 1) ∧
    (∀ jobs', cli_main_exit eY eF file jobs' = cli_main_exit eY eF file jobs) := by
  cases eY with
  | error e =>
    exact ⟨⟨fun _ => Or.inl ⟨e, rfl⟩, fun _ => rfl⟩, Or.inr rfl, fun _ => rfl⟩
  | ok _ =>
    cases file with
    | none =>
      refine ⟨⟨fun _ => Or.inr (Or.inl rfl), fun _ => rfl⟩, Or.inr rfl, fun _ => rfl⟩
    | some text =>
      by_cases hp : read_urls_from_text text = []
      · refine ⟨⟨fun _ => Or.inr (Or.inr hp), fun _ => ?_⟩, Or.inr ?_, fun _ => ?_⟩ <;>
          simp [cli_main_exit, read_urls_from_file, hp]
      · have hz : cli_main_exit (.ok ()) eF (some text) jobs = 0 := by
          simp [cli_main_exit, read_urls_from_file, hp]
        refine ⟨⟨fun h1 => ?_, fun h => ?_⟩, Or.inl hz, fun jobs' => ?_⟩
        · rw [hz] at h1
          exact absurd h1 (by decide)
        · rcases h with ⟨e, he⟩ | h | h
          · exact absurd he (by simp)
          · exact absurd h (by simp)
          · simp at h
            exact absurd h hp
        · simp [cli_main_exit, read_urls_from_file, hp]

/-- C6 witness: a present, non-empty URL source with successful
provisioning exits 0 whatever a failed job result list looks like. -/
theorem C6_cli_exit_witness :
    cli_main_exit (.ok ()) (.ok ()) (some (enc "https://a"))
        [.ok (enc "https://a", 1)] = 0 :=
  ((C6_cli_exit (.ok ()) (.ok ()) (some (enc "https://a"))
      [.ok (enc "https://a", 1)]).2.1).resolve_right (by decide)

-- Counting and membership lemmas for the coordinator event stream.

theorem countDone_append (a b : List GEvent) :
    countDone (a ++ b) = countDone a + countDone b := by
  simp [countDone, List.filter_append]

theorem countDone_completionEvents
    (c : (String × Nat) × Except String (String × Int)) :
    countDone (completionEvents c) = 0 := by
  rcases c with ⟨⟨u, i⟩, r⟩
  cases r with
  | ok p => simp [completionEvents, countDone]
  | error e => simp [completionEvents, countDone]

theorem countDone_flatMap
    (comps : List ((String × Nat) × Except String (String × Int))) :
    countDone (comps.flatMap completionEvents) = 0 := by
  induction comps with
  | nil => rfl
  | cons c rest ih =>
    rw [List.flatMap_cons, countDone_append, countDone_completionEvents, ih]

theorem run_downloads_ok_eq (eF : Except String Unit) (el : String)
    (comps : List ((String × Nat) × Except String (String × Int))) :
    run_downloads (.ok ()) eF el comps =
      (match eF with
       | .error e =>
         [GEvent.log ("Failed to ensure ffmpeg: " ++ e),
          GEvent.log "Warning: ffmpeg missing or failed to extract. Conversion may fail."]
       | .ok _ => ([] : List GEvent)) ++
      comps.flatMap completionEvents ++
      [GEvent.log ("All done. Elapsed: " ++ el ++ "s"), GEvent.done] := rfl

theorem mem_run_downloads_ok {e : GEvent} (eF : Except String Unit) (el : String)
    (comps : List ((String × Nat) × Except String (String × Int)))
    (c : (String × Nat) × Except String (String × Int))
    (hc : c ∈ comps) (he : e ∈ completionEvents c) :
    e ∈ run_downloads (.ok ()) eF el comps := by
  rw [run_downloads_ok_eq]
  refine List.mem_append.mpr (Or.inl (List.mem_append.mpr (Or.inr ?_)))
  exact List.mem_flatMap.mpr ⟨c, hc, he⟩

/-- C7 counterexample: a job completing with exit code 2 produces the
status value `"failed (2)"` — the implementation formats
`f"failed ({code})"` with a space — not the claimed `"failed(2)"`. -/
theorem C7_counterexample :
    run_downloads (.ok ()) (.ok ()) "1.0" [(("u", 1), .ok ("u", 2))] =
      [GEvent.status 1 "failed (2)",
       GEvent.log "All done. Elapsed: 1.0s", GEvent.done] ∧
    GEvent.status 1 "failed(2)" ∉
      run_downloads (.ok ()) (.ok ()) "1.0" [(("u", 1), .ok ("u", 2))] := by
  refine ⟨rfl, by decide⟩

/-- C7 (amended): for each completed job the coordinator emits a status
event whose value is the string `"done"` when the exit code is 0 and
`"failed (code)"` — with a space before the parenthesized code, as the
implementation formats it — otherwise; when result retrieval raises it
instead emits an `"error"` status for that job and logs the anomaly, not
aborting the other jobs; and whatever the completions, the stream contains
exactly one terminal `done` event, emitted after all job events. -/
theorem C7_coordinator_events (eF : Except String Unit) (el : String)
    (comps : List ((String × Nat) × Except String (String × Int))) :
    (∀ u i r code, ((u, i), Except.ok (r, code)) ∈ comps →
      GEvent.status i
          (if code = 0 then "done" else "failed (" ++ toString code ++ ")")
        ∈ run_downloads (.ok ()) eF el comps) ∧
    (∀ u i e, ((u, i), Except.error e) ∈ comps →
      GEvent.status i "error" ∈ run_downloads (.ok ()) eF el comps ∧
      GEvent.log ("[ERROR] " ++ u ++ " raised exception: " ++ e)
        ∈ run_downloads (.ok ()) eF el comps) ∧
    countDone (run_downloads (.ok ()) eF el comps) = 1 ∧
    (run_downloads (.ok ()) eF el comps).getLast? = some GEvent.done ∧
    (∀ eY : Except String Unit, countDone (run_downloads eY eF el comps) = 1) := by
  refine ⟨?_, ?_, ?_, ?_, ?_⟩
  · intro u i r code hc
    exact mem_run_downloads_ok eF el comps _ hc (by simp [completionEvents])
  · intro u i e hc
    exact ⟨mem_run_downloads_ok eF el comps _ hc (by simp [completionEvents]),
      mem_run_downloads_ok eF el comps _ hc (by simp [completionEvents])⟩
  · rw [run_downloads_ok_eq, countDone_append, countDone_append, countDone_flatMap]
    cases eF <;> simp [countDone]
  · rw [run_downloads_ok_eq]
    rw [List.getLast?_append, List.getLast?_append]
    simp
  · intro eY
    cases eY with
    | error e => rfl
    | ok a =>
      rw [run_downloads_ok_eq, countDone_append, countDone_append, countDone_flatMap]
      cases eF <;> simp [countDone]

/-- C7 witness: at a concrete single-job batch with exit code 0, the
coordinator emits `status 1 "done"` and exactly one `done` event. -/
theorem C7_coordinator_events_witness :
    GEvent.status 1 "done" ∈
      run_downloads (.ok ()) (.ok ()) "0.5" [(("u", 1), .ok ("u", 0))] ∧
    countDone (run_downloads (.ok ()) (.ok ()) "0.5" [(("u", 1), .ok ("u", 0))]) = 1 := by
  constructor
  · have h := (C7_coordinator_events (.ok ()) "0.5" [(("u", 1), .ok ("u", 0))]).1
      "u" 1 "u" 0 (by simp)
    simpa using h
  · exact (C7_coordinator_events (.ok ()) "0.5" [(("u", 1), .ok ("u", 0))]).2.2.1

-- Invariants of the bounded worker pool.

theorem poolReach_trans {w : Nat} {s t u : PoolSt}
    (h1 : PoolReach w s t) (h2 : PoolReach w t u) : PoolReach w s u := by
  induction h2 with
  | refl => exact h1
  | tail _ hstep ih => exact PoolReach.tail ih hstep

theorem pool_inv (jobs : List Nat) (s : PoolSt)
    (h : PoolReach MAX_WORKERS (initPool jobs) s) :
    s.running.length ≤ MAX_WORKERS ∧
    s.queued.length + s.running.length + s.finished.length = jobs.length := by
  induction h with
  | refl => simp [initPool, MAX_WORKERS]
  | tail _ hstep ih =>
    cases hstep with
    | start j q r f hlt =>
      simp only at ih ⊢
      simp only [List.length_cons] at ih ⊢
      omega
    | finish j q r₁ r₂ f =>
      simp only [List.length_append, List.length_cons] at ih ⊢
      omega

theorem pool_drain (q f : List Nat) :
    PoolReach MAX_WORKERS ⟨q, [], f⟩ ⟨[], [], q.reverse ++ f⟩ := by
  induction q generalizing f with
  | nil => simpa using PoolReach.refl (⟨[], [], f⟩ : PoolSt)
  | cons j q ih =>
    have h1 : PoolStep MAX_WORKERS ⟨j :: q, [], f⟩ ⟨q, [j], f⟩ :=
      PoolStep.start j q [] f (by decide)
    have h2 : PoolStep MAX_WORKERS ⟨q, [j], f⟩ ⟨q, [], j :: f⟩ :=
      PoolStep.finish j q [] [] f
    have h3 := poolReach_trans
      (PoolReach.tail (PoolReach.tail (PoolReach.refl _) h1) h2) (ih (j :: f))
    simpa [List.append_assoc] using h3

/-- C2: with the pool bound `MAX_WORKERS = 4` of the source, every state
reachable from a freshly submitted batch has at most
`min MAX_WORKERS job_count` simultaneously running Worker Runners, and a
schedule exists that drives every job of the batch to finished. -/
theorem C2_pool_bound (jobs : List Nat) :
    (∀ s : PoolSt, PoolReach MAX_WORKERS (initPool jobs) s →
      s.running.length ≤ min MAX_WORKERS jobs.length) ∧
    (∃ s : PoolSt, PoolReach MAX_WORKERS (initPool jobs) s ∧
      s.queued = [] ∧ s.running = [] ∧ s.finished.length = jobs.length) := by
  constructor
  · intro s hs
    have h := pool_inv jobs s hs
    omega
  · exact ⟨⟨[], [], jobs.reverse ++ []⟩, pool_drain jobs [], rfl, rfl, by simp⟩

/-- C2 witness: in a ten-job batch, the state with four runners active is
reachable and respects the bound `min 4 10`. -/
theorem C2_pool_bound_witness :
    (⟨[5, 6, 7, 8, 9, 10], [4, 3, 2, 1], []⟩ : PoolSt).running.length ≤
      min MAX_WORKERS ([1, 2, 3, 4, 5, 6, 7, 8, 9, 10] : List Nat).length :=
  (C2_pool_bound [1, 2, 3, 4, 5, 6, 7, 8, 9, 10]).1 _
    (PoolReach.tail (PoolReach.tail (PoolReach.tail (PoolReach.tail
      (PoolReach.refl _)
      (PoolStep.start 1 [2, 3, 4, 5, 6, 7, 8, 9, 10] [] [] (by decide)))
      (PoolStep.start 2 [3, 4, 5, 6, 7, 8, 9, 10] [1] [] (by decide)))
      (PoolStep.start 3 [4, 5, 6, 7, 8, 9, 10] [2, 1] [] (by decide)))
      (PoolStep.start 4 [5, 6, 7, 8, 9, 10] [3, 2, 1] [] (by decide)))

/-- C1: `subprocess.Popen` is executed before the `try` block of
`run_yt_dlp_for_url`, so an exception raised during process spawn
propagates out of the function with no error-log line and no `(url, -1)`
sentinel — contradicting the claim — while an exception raised during
reading does take the handler path: sentinel result, error-log diagnostic,
and a kill of the still-alive process. -/
theorem C1_spawn_exception_propagates :
    (run_yt_dlp_for_url
        ⟨some (enc "FileNotFoundError"), enc "ts", [], none, none, 0, false⟩
        (enc "https://x") 1).result = .error (enc "FileNotFoundError") ∧
    (run_yt_dlp_for_url
        ⟨some (enc "FileNotFoundError"), enc "ts", [], none, none, 0, false⟩
        (enc "https://x") 1).errLogAppends = [] ∧
    (run_yt_dlp_for_url
        ⟨none, enc "ts", [], some (enc "OSError"), none, 0, true⟩
        (enc "https://x") 1).result = .ok (enc "https://x", -1) ∧
    (run_yt_dlp_for_url
        ⟨none, enc "ts", [], some (enc "OSError"), none, 0, true⟩
        (enc "https://x") 1).errLogAppends =
      [errDiag (enc "https://x") (enc "OSError")] ∧
    (run_yt_dlp_for_url
        ⟨none, enc "ts", [], some (enc "OSError"), none, 0, true⟩
        (enc "https://x") 1).killed = true :=
  ⟨rfl, rfl, rfl, rfl, rfl⟩

-- Decomposition of lock-valid interleavings into whole log_line blocks.

theorem threadActs_cons (t : Nat) (m : PyStr) (ms : List PyStr) :
    threadActs t (m :: ms) =
      .lock t :: .write t (m ++ [10]) :: .flush t :: .unlock t ::
        threadActs t ms := by
  simp [threadActs, log_line]

theorem blocks_head {t : Nat} {ms : List PyStr} {a : LogAct} {tl : List LogAct}
    (h : threadActs t ms = a :: tl) :
    ∃ m ms', ms = m :: ms' ∧ a = .lock t ∧
      tl = .write t (m ++ [10]) :: .flush t :: .unlock t :: threadActs t ms' := by
  cases ms with
  | nil => simp [threadActs] at h
  | cons m ms' =>
    rw [threadActs_cons] at h
    injection h with h1 h2
    exact ⟨m, ms', rfl, h1.symm, h2.symm⟩

theorem mix_blocks (n : Nat) :
    ∀ (qs : Nat → List LogAct) (tr : List LogAct), tr.length ≤ n →
      Mix qs tr → AllBlocks qs → LockOk none tr →
      ∃ blocks : List (Nat × PyStr),
        tr = blocks.flatMap (fun p => log_line p.1 p.2) := by
  induction n with
  | zero =>
    intro qs tr hlen _ _ _
    have htr : tr = [] := List.length_eq_zero.mp (Nat.le_zero.mp hlen)
    exact ⟨[], by rw [htr]; rfl⟩
  | succ n ih =>
    intro qs tr hlen hmix hall hlock
    cases hmix with
    | nil _ _ => exact ⟨[], rfl⟩
    | step _ t a tl tr₁ hq hmix₁ =>
      obtain ⟨ms, hms⟩ := hall t
      have hth : threadActs t ms = a :: tl := by rw [← hms, hq]
      obtain ⟨m, ms', hms', ha, htl⟩ := blocks_head hth
      subst ha
      subst htl
      have hlock₁ : LockOk (some t) tr₁ := by cases hlock; assumption
      -- second action: forced to be thread t's write
      cases hmix₁ with
      | nil _ h2 =>
        have := h2 t
        simp [upd] at this
      | step _ t₂ a₂ tl₂ tr₂ hq₂ hmix₂ =>
        by_cases ht₂ : t₂ = t
        case neg =>
          have hupd : upd qs t
              (.write t (m ++ [10]) :: .flush t :: .unlock t ::
                threadActs t ms') t₂ = qs t₂ := by
            simp [upd, ht₂]
          rw [hupd] at hq₂
          obtain ⟨ms₂, hms₂⟩ := hall t₂
          have hth₂ : threadActs t₂ ms₂ = a₂ :: tl₂ := by rw [← hms₂, hq₂]
          obtain ⟨m₂, ms₂', _, ha₂, _⟩ := blocks_head hth₂
          subst ha₂
          cases hlock₁
        case pos =>
          subst ht₂
          have hq₂' : (.write t₂ (m ++ [10]) : LogAct) :: .flush t₂ ::
              .unlock t₂ :: threadActs t₂ ms' = a₂ :: tl₂ := by
            simpa [upd] using hq₂
          injection hq₂' with ha₂ htl₂
          subst ha₂
          subst htl₂
          have hlock₂ : LockOk (some t₂) tr₂ := by cases hlock₁; assumption
          -- third action: forced to be thread t's flush
          cases hmix₂ with
          | nil _ h3 =>
            have := h3 t₂
            simp [upd] at this
          | step _ t₃ a₃ tl₃ tr₃ hq₃ hmix₃ =>
            by_cases ht₃ : t₃ = t₂
            case neg =>
              have hupd₃ : ∀ v₂ v₁,
                  upd (upd qs t₂ v₁) t₂ v₂ t₃ = qs t₃ := by
                intro v₂ v₁
                simp [upd, ht₃]
              rw [hupd₃] at hq₃
              obtain ⟨ms₃, hms₃⟩ := hall t₃
              have hth₃ : threadActs t₃ ms₃ = a₃ :: tl₃ := by rw [← hms₃, hq₃]
              obtain ⟨m₃, ms₃', _, ha₃, _⟩ := blocks_head hth₃
              subst ha₃
              cases hlock₂
            case pos =>
              subst ht₃
              have hq₃' : (.flush t₃ : LogAct) :: .unlock t₃ ::
                  threadActs t₃ ms' = a₃ :: tl₃ := by
                simpa [upd] using hq₃
              injection hq₃' with ha₃ htl₃
              subst ha₃
              subst htl₃
              have hlock₃ : LockOk (some t₃) tr₃ := by cases hlock₂; assumption
              -- fourth action: forced to be thread t's unlock
              cases hmix₃ with
              | nil _ h4 =>
                have := h4 t₃
                simp [upd] at this
              | step _ t₄ a₄ tl₄ tr₄ hq₄ hmix₄ =>
                by_cases ht₄ : t₄ = t₃
                case neg =>
                  have hupd₄ : ∀ v₃ v₂ v₁,
                      upd (upd (upd qs t₃ v₁) t₃ v₂) t₃ v₃ t₄ = qs t₄ := by
                    intro v₃ v₂ v₁
                    simp [upd, ht₄]
                  rw [hupd₄] at hq₄
                  obtain ⟨ms₄, hms₄⟩ := hall t₄
                  have hth₄ : threadActs t₄ ms₄ = a₄ :: tl₄ := by
                    rw [← hms₄, hq₄]
                  obtain ⟨m₄, ms₄', _, ha₄, _⟩ := blocks_head hth₄
                  subst ha₄
                  cases hlock₃
                case pos =>
                  subst ht₄
                  have hq₄' : (.unlock t₄ : LogAct) :: threadActs t₄ ms' =
                      a₄ :: tl₄ := by
                    simpa [upd] using hq₄
                  injection hq₄' with ha₄ htl₄
                  subst ha₄
                  subst htl₄
                  have hlock₄ : LockOk none tr₄ := by cases hlock₃; assumption
                  have hall₄ : AllBlocks (upd (upd (upd (upd qs t₄
                      (.write t₄ (m ++ [10]) :: .flush t₄ :: .unlock t₄ ::
                        threadActs t₄ ms')) t₄
                      (.flush t₄ :: .unlock t₄ :: threadActs t₄ ms')) t₄
                      (.unlock t₄ :: threadActs t₄ ms')) t₄
                      (threadActs t₄ ms')) := by
                    intro u
                    by_cases hu : u = t₄
                    · exact ⟨ms', by simp [upd, hu]⟩
                    · obtain ⟨msu, hmsu⟩ := hall u
                      exact ⟨msu, by simp only [upd, if_neg hu]; exact hmsu⟩
                  have hlen₄ : tr₄.length ≤ n := by
                    simp only [List.length_cons] at hlen
                    omega
                  obtain ⟨blocks, hb⟩ := ih _ tr₄ hlen₄ hmix₄ hall₄ hlock₄
                  exact ⟨(t₄, m) :: blocks, by simp [log_line, hb]⟩

theorem writesOf_append (a b : List LogAct) :
    writesOf (a ++ b) = writesOf a ++ writesOf b := by
  simp [writesOf, List.filterMap_append]

theorem writesOf_blocks (blocks : List (Nat × PyStr)) :
    writesOf (blocks.flatMap (fun p => log_line p.1 p.2)) =
      blocks.map (fun p => p.2 ++ [10]) := by
  induction blocks with
  | nil => rfl
  | cons b rest ih =>
    rw [List.flatMap_cons, writesOf_append, ih]
    rcases b with ⟨t, msg⟩
    simp [log_line, writesOf]

/-- C8: every append to the shared log goes through `log_line`, which
holds `LOG_LOCK` around both the write and the flush; consequently any
lock-valid interleaving of the runners' log actions decomposes into whole
`log_line` critical sections, so the appended byte sequences are exactly
the complete lines `message ++ "\n"`, one per call — no two log lines ever
interleave within a single line. -/
theorem C8_log_serialized (qs : Nat → List LogAct) (tr : List LogAct)
    (hmix : Mix qs tr) (hall : AllBlocks qs) (hlock : LockOk none tr) :
    ∃ blocks : List (Nat × PyStr),
      tr = blocks.flatMap (fun p => log_line p.1 p.2) ∧
      writesOf tr = blocks.map (fun p => p.2 ++ [10]) := by
  obtain ⟨blocks, hb⟩ := mix_blocks tr.length qs tr le_rfl hmix hall hlock
  exact ⟨blocks, hb, by rw [hb, writesOf_blocks]⟩

/-- C8 witness: a concrete two-runner trace — runner 0 logging `"a"`, then
runner 1 logging `"b"` — is a lock-valid interleaving and decomposes into
whole lines. -/
theorem C8_log_serialized_witness :
    ∃ blocks : List (Nat × PyStr),
      log_line 0 (enc "a") ++ log_line 1 (enc "b") =
        blocks.flatMap (fun p => log_line p.1 p.2) ∧
      writesOf (log_line 0 (enc "a") ++ log_line 1 (enc "b")) =
        blocks.map (fun p => p.2 ++ [10]) := by
  refine C8_log_serialized
    (fun t => if t = 0 then threadActs 0 [enc "a"]
      else if t = 1 then threadActs 1 [enc "b"] else [])
    (log_line 0 (enc "a") ++ log_line 1 (enc "b")) ?_ ?_ ?_
  · refine Mix.step _ 0 _ _ _ rfl ?_
    refine Mix.step _ 0 _ _ _ rfl ?_
    refine Mix.step _ 0 _ _ _ rfl ?_
    refine Mix.step _ 0 _ _ _ rfl ?_
    refine Mix.step _ 1 _ _ _ rfl ?_
    refine Mix.step _ 1 _ _ _ rfl ?_
    refine Mix.step _ 1 _ _ _ rfl ?_
    refine Mix.step _ 1 _ _ _ rfl ?_
    refine Mix.nil _ ?_
    intro t
    by_cases h0 : t = 0 <;> by_cases h1 : t = 1 <;>
      simp [upd, h0, h1, threadActs]
  · intro t
    by_cases h0 : t = 0
    · exact ⟨[enc "a"], by simp [h0]⟩
    · by_cases h1 : t = 1
      · exact ⟨[enc "b"], by simp [h0, h1]⟩
      · exact ⟨[], by simp [h0, h1, threadActs]⟩
  · show LockOk none
      [.lock 0, .write 0 (enc "a" ++ [10]), .flush 0, .unlock 0,
       .lock 1, .write 1 (enc "b" ++ [10]), .flush 1, .unlock 1]
    exact .lock 0 _ (.write _ _ _ _ (.flush _ _ _ (.unlock 0 _
      (.lock 1 _ (.write _ _ _ _ (.flush _ _ _ (.unlock 1 _ (.nil none))))))))

end YtDlp
